import Mathlib

/-!
Shallow embedding of the core of the signalwire-telephony audio bridge
(package telephony): the G.711 mu-law codec and PCM16 resampler from
audio-converter.go, the session registry, routing step and latency metrics
from the audio stream bridge, and the SignalWire WebSocket call session
(close semantics, outbound writes, media-event handling) from
signalwire-audio-bridge.go.

Conventions of the embedding:
- Go byte values are Nat in [0, 256); PCM16 byte frames are List Nat.
- Go int16 values are Int together with the two's-complement helpers
  toUInt16 / toInt16; every operation that can wrap in Go is routed
  through these helpers.
- Go int64 metric counters are Int; they only ever increase by small
  steps from 0, so 64-bit wrap-around is unreachable in every scenario
  modelled here and is not modelled.
- Go integer division truncates toward zero: Int.tdiv. A Go arithmetic
  right shift on a signed value is floor division: Int.fdiv by a power
  of two.
- A Go buffered channel is GoChan. Sending on a closed channel and
  closing a closed channel are runtime panics in Go; both are modelled
  explicitly (SendOutcome.panicked, chanClose returning none).
-/

/-- Two's complement: the uint16 bit pattern (as a Nat in [0, 65536)) of an
integer, as produced by a Go conversion to uint16. -/
def toUInt16 (v : Int) : Nat := (v % 65536).toNat

/-- Two's complement: the Go int16 value of a 16-bit pattern. -/
def toInt16 (u : Nat) : Int :=
  if u % 65536 < 32768 then ((u % 65536 : Nat) : Int)
  else ((u % 65536 : Nat) : Int) - 65536

/-- Little-endian byte pair of an int16 value, as written by
binary.LittleEndian.PutUint16. -/
def int16ToLeBytes (v : Int) : List Nat :=
  [toUInt16 v % 256, toUInt16 v / 256]

/-- Reads consecutive little-endian byte pairs as int16 samples, as done by
binary.LittleEndian.Uint16 followed by the int16 conversion. A trailing odd
byte (never present: callers check evenness first) is ignored. -/
def lePairsToInt16 : List Nat → List Int
  | lo :: hi :: rest => toInt16 (lo % 256 + 256 * (hi % 256)) :: lePairsToInt16 rest
  | _ => []

/-- Byte frame of a list of int16 samples (little-endian), for writing
concrete PCM16 test frames. -/
def pcm16Bytes (xs : List Int) : List Nat :=
  (xs.map int16ToLeBytes).flatten

/- ============================================================
   Codec: audio-converter.go
   ============================================================ -/

/-- decodeMulaw, per-byte: complement the byte, split into sign / 3-bit
exponent / 4-bit mantissa, reconstruct sign * (((mantissa << 3) + 0x84)
<< exponent). The int16 intermediate never exceeds 32256 in magnitude, so
plain Int arithmetic is exact. -/
def decodeMulawByte (y : Nat) : Int :=
  let b := (y % 256) ^^^ 0xFF
  let sign : Int := if b &&& 0x80 ≠ 0 then -1 else 1
  let exponent := (b >>> 4) &&& 0x07
  let mantissa := b &&& 0x0F
  sign * ((((mantissa <<< 3) + 0x84) <<< exponent : Nat) : Int)

/-- decodeMulaw: each mu-law byte becomes one little-endian PCM16 sample. -/
def decodeMulaw (mulawData : List Nat) : List Nat :=
  (mulawData.map fun y => int16ToLeBytes (decodeMulawByte y)).flatten

/-- The unrolled exponent-search loop of linearToMulaw: exponent starts at 7
and the loop takes the first exp in [0, 6] with sample <= 1 << (exp + 5). -/
def mulawExponent (s : Int) : Nat :=
  if s ≤ 32 then 0
  else if s ≤ 64 then 1
  else if s ≤ 128 then 2
  else if s ≤ 256 then 3
  else if s ≤ 512 then 4
  else if s ≤ 1024 then 5
  else if s ≤ 2048 then 6
  else 7

/-- linearToMulaw: record the sign, negate (with int16 wrap: -(-32768) is
-32768), clamp to 32635, pick the exponent by the loop above, take
mantissa = sample >> (exponent + 1) (arithmetic shift = floor division),
compose (exponent << 4) | mantissa in int16, truncate to a byte, OR the
sign bit, complement. -/
def linearToMulaw (sample : Int) : Nat :=
  let neg := sample < 0
  let s1 : Int := if sample < 0 then toInt16 (toUInt16 (-sample)) else sample
  let s2 : Int := if s1 > 32635 then 32635 else s1
  let exponent : Nat := mulawExponent s2
  let mantissa : Int := Int.fdiv s2 (2 ^ (exponent + 1))
  let composed : Nat := Nat.lor (exponent <<< 4) (toUInt16 mantissa)
  let b1 : Nat := composed % 256
  let b2 : Nat := if neg then b1 ||| 0x80 else b1
  b2 ^^^ 0xFF

/-- encodeMulaw: reject odd byte length with an error (none), otherwise
encode each little-endian int16 sample with linearToMulaw. -/
def encodeMulaw (pcmData : List Nat) : Option (List Nat) :=
  if pcmData.length % 2 = 1 then none
  else some ((lePairsToInt16 pcmData).map linearToMulaw)

/-- Modelled from the spec's words for the encode step, for comparison with
linearToMulaw: choose the smallest exponent in [0, 7] such that the
magnitude fits the 4-bit mantissa field, i.e. magnitude >> (exponent + 1)
<= 15 (7 when none fits). -/
def specMulawExponent (m : Nat) : Nat :=
  if m >>> 1 ≤ 15 then 0
  else if m >>> 2 ≤ 15 then 1
  else if m >>> 3 ≤ 15 then 2
  else if m >>> 4 ≤ 15 then 3
  else if m >>> 5 ≤ 15 then 4
  else if m >>> 6 ≤ 15 then 5
  else if m >>> 7 ≤ 15 then 6
  else 7

/-- Modelled from the spec's words: record the sign, clamp the magnitude to
32635, smallest exponent fitting the mantissa field, mantissa =
magnitude >> (exponent + 1), compose (exponent << 4) | mantissa, OR the
sign bit, bit-invert. -/
def specLinearToMulaw (sample : Int) : Nat :=
  let neg := sample < 0
  let m : Nat := min sample.natAbs 32635
  let e := specMulawExponent m
  let mant := m >>> (e + 1)
  let b1 := ((e <<< 4) ||| mant) % 256
  let b2 := if neg then b1 ||| 0x80 else b1
  b2 ^^^ 0xFF

/- ============================================================
   Resampler: audio-converter.go, resamplePCM16
   ============================================================ -/

/-- Result of resamplePCM16: the Go function returns an error on odd input
length; a negative clamped source index makes the slice expression
pcmData[srcIndex*2 : ...] a runtime panic, modelled as panicked. -/
inductive ResampleResult
  | ok (out : List Nat)
  | errOddLength
  | panicked
deriving DecidableEq

/-- One iteration of the resampling loop for output index i, over the int16
samples of the input. The Go code computes srcPos = i * (fromRate/toRate)
in float64; here the same rational is carried exactly as the integer
numerator over the fixed denominator toRate, which agrees with the float64
computation whenever that computation is exact (it is for every input these
theorems evaluate, e.g. ratio 8000/16000 = 0.5). srcIndex is the truncation
of the nonnegative srcPos, then clamped ABOVE to numInputSamples - 2 (which
is -1 when the input has one sample); the two sample reads panic (none)
unless 0 <= srcIndex and srcIndex + 2 <= numInputSamples. The interpolated
value s1*(1-f) + s2*f is clamped to int16 and truncated toward zero. -/
def resampleAt (samples : List Int) (fromRate toRate : Nat) (i : Nat) : Option Int :=
  let numIn := samples.length
  let srcIndex0 : Int := ((i * fromRate) / toRate : Nat)
  let srcIndex : Int := if srcIndex0 ≥ (numIn : Int) - 1 then (numIn : Int) - 2 else srcIndex0
  if 0 ≤ srcIndex ∧ srcIndex + 2 ≤ (numIn : Int) then
    let j := srcIndex.toNat
    let s1 := samples.getD j 0
    let s2 := samples.getD (j + 1) 0
    let fracNum : Int := ((i * fromRate : Nat) : Int) - srcIndex * (toRate : Int)
    let num : Int := s1 * ((toRate : Int) - fracNum) + s2 * fracNum
    some (if num > 32767 * (toRate : Int) then 32767
          else if num < -32768 * (toRate : Int) then -32768
          else Int.tdiv num (toRate : Int))
  else none

/-- resamplePCM16: reject odd byte length; numOutputSamples =
(numInputSamples * toRate) / fromRate; each output sample is produced by
resampleAt and written back as little-endian bytes. Any out-of-bounds read
in an iteration is a runtime panic. -/
def resamplePCM16 (pcmData : List Nat) (fromRate toRate : Nat) : ResampleResult :=
  if pcmData.length % 2 = 1 then .errOddLength
  else
    let samples := lePairsToInt16 pcmData
    let numOut := samples.length * toRate / fromRate
    match (List.range numOut).mapM (resampleAt samples fromRate toRate) with
    | some outs => .ok ((outs.map int16ToLeBytes).flatten)
    | none => .panicked

/- ============================================================
   Go channels and the bridge data model: part_000 (audio stream
   bridge) and signalwire-audio-bridge.go
   ============================================================ -/

/-- A Go buffered channel of byte frames: bounded FIFO buffer plus the
closed flag. -/
structure GoChan where
  buf : List (List Nat)
  cap : Nat
  closed : Bool
deriving DecidableEq

/-- Outcome of the non-blocking send pattern used throughout the bridge. -/
inductive SendOutcome
  | delivered
  | dropped
  | panicked
deriving DecidableEq

/-- Models the Go pattern select with a send case and a 10 ms time.After
case, with no concurrent receiver: a send on a closed channel is chosen
and panics (Go semantics); otherwise the send succeeds exactly when the
buffer has room, and the timeout fires (dropping the value) when the
buffer is full. -/
def chanTrySend (ch : GoChan) (x : List Nat) : SendOutcome × GoChan :=
  if ch.closed then (.panicked, ch)
  else if ch.buf.length < ch.cap then (.delivered, { ch with buf := ch.buf ++ [x] })
  else (.dropped, ch)

/-- Go close(ch): closing an already-closed channel is a runtime panic,
modelled as none. -/
def chanClose (ch : GoChan) : Option GoChan :=
  if ch.closed then none else some { ch with closed := true }

/-- BridgeMetrics of part_000: int64 counters and latency gauges. -/
structure BridgeMetrics where
  phoneToAIPacketsSent : Int := 0
  phoneToAIPacketsDropped : Int := 0
  aiToPhonePacketsSent : Int := 0
  aiToPhonePacketsDropped : Int := 0
  averageLatencyUs : Int := 0
  maxLatencyUs : Int := 0
  bytesReceived : Int := 0
  bytesSent : Int := 0
  droppedPackets : Int := 0
  overruns : Int := 0
  underruns : Int := 0
deriving DecidableEq

/-- BridgeSession of part_000: lifecycle flags, the two bounded frame
queues, and the metrics. The cancelled flag models the state of the
session context after cancel(). Timestamps are not modelled. -/
structure BridgeSession where
  active : Bool
  streaming : Bool
  cancelled : Bool
  phoneToAIChan : GoChan
  aiToPhoneChan : GoChan
  metrics : BridgeMetrics
deriving DecidableEq

/-- The session built by CreateSession: active, not streaming, both queues
open with capacity 500, zero metrics. -/
def newBridgeSession : BridgeSession :=
  { active := true
    streaming := false
    cancelled := false
    phoneToAIChan := { buf := [], cap := 500, closed := false }
    aiToPhoneChan := { buf := [], cap := 500, closed := false }
    metrics := {} }

/-- AudioStreamBridge: the registry mapping session id to BridgeSession.
The Go map with its lock is modelled as an association list (insertion
order is irrelevant to every claim). -/
structure AudioStreamBridge where
  sessions : List (String × BridgeSession)
deriving DecidableEq

/-- Map lookup sessions[sessionID]. -/
def lookupSession (bridge : AudioStreamBridge) (sessionID : String) : Option BridgeSession :=
  (bridge.sessions.find? (fun p => p.1 == sessionID)).map (·.2)

/-- CreateSession: error (none) when the id already exists, otherwise
insert a fresh session pair. -/
def createSession (bridge : AudioStreamBridge) (sessionID : String) :
    Option (BridgeSession × AudioStreamBridge) :=
  if (lookupSession bridge sessionID).isSome then none
  else some (newBridgeSession,
    { sessions := bridge.sessions ++ [(sessionID, newBridgeSession)] })

/-- GetSession: the map read; a missing id gives nil (none). -/
def getSession (bridge : AudioStreamBridge) (sessionID : String) : Option BridgeSession :=
  lookupSession bridge sessionID

/-- Result of CloseSession: the Go function returns an error for an unknown
id; closing a queue twice would be a runtime panic (unreachable because the
entry is deleted on the first close). -/
inductive CloseSessionResult
  | ok
  | notFound
  | panicked
deriving DecidableEq

/-- CloseSession: unknown id returns the not-found error; otherwise mark
the session inactive, cancel its context, close both queues, and delete
the map entry. -/
def closeSession (bridge : AudioStreamBridge) (sessionID : String) :
    CloseSessionResult × AudioStreamBridge :=
  match lookupSession bridge sessionID with
  | none => (.notFound, bridge)
  | some s =>
    match chanClose s.phoneToAIChan, chanClose s.aiToPhoneChan with
    | some _, some _ =>
        (.ok, { sessions := bridge.sessions.filter (fun p => !(p.1 == sessionID)) })
    | _, _ => (.panicked, bridge)

/-- N successive calls of CloseSession on the same id (the returned errors
are discarded, as in the idempotence scenario of the spec). -/
def closeSessionTimes (bridge : AudioStreamBridge) (sessionID : String) : Nat → AudioStreamBridge
  | 0 => bridge
  | n + 1 => closeSessionTimes (closeSession bridge sessionID).2 sessionID n

/-- updateLatency of part_000: when the stored average is 0 the observation
is stored as-is, otherwise the exponential moving average
(old * 9 + x) / 10 with Go int64 division (truncation toward zero); the
maximum is bumped when exceeded. -/
def updateLatency (m : BridgeMetrics) (latencyUs : Int) : BridgeMetrics :=
  let avg := if m.averageLatencyUs = 0 then latencyUs
             else Int.tdiv (m.averageLatencyUs * 9 + latencyUs) 10
  let mx := if latencyUs > m.maxLatencyUs then latencyUs else m.maxLatencyUs
  { m with averageLatencyUs := avg, maxLatencyUs := mx }

/-- The body of the routePhoneToAI loop for one chunk received from the
link: empty chunks are skipped; processIncomingAudio is the identity
(mu-law pass-through); then the non-blocking send into phoneToAIChan with
the 10 ms grace. Delivery bumps the sent counter and bytesReceived and
records the measured latency (latencyUs, an external measurement); a
timeout drops the chunk and bumps PhoneToAIPacketsDropped and the global
DroppedPackets. A send on a closed queue is a runtime panic (none). -/
def routePhoneToAIStep (s : BridgeSession) (chunk : List Nat) (latencyUs : Int) :
    Option BridgeSession :=
  if chunk.length = 0 then some s
  else
    match chanTrySend s.phoneToAIChan chunk with
    | (.delivered, ch) =>
        some { s with
               phoneToAIChan := ch
               metrics := updateLatency
                 { s.metrics with
                   phoneToAIPacketsSent := s.metrics.phoneToAIPacketsSent + 1
                   bytesReceived := s.metrics.bytesReceived + chunk.length }
                 latencyUs }
    | (.dropped, ch) =>
        some { s with
               phoneToAIChan := ch
               metrics :=
                 { s.metrics with
                   phoneToAIPacketsDropped := s.metrics.phoneToAIPacketsDropped + 1
                   droppedPackets := s.metrics.droppedPackets + 1 } }
    | (.panicked, _) => none

/-- The routePhoneToAI loop run over a list of received chunks (latency
measurements taken as 0; no counter claim depends on them). A panic in any
iteration aborts the whole run (the goroutine dies). -/
def routePhoneToAIRun (s : BridgeSession) (chunks : List (List Nat)) : Option BridgeSession :=
  chunks.foldlM (fun st f => routePhoneToAIStep st f 0) s

/- ============================================================
   SignalWire call session: signalwire-audio-bridge.go
   ============================================================ -/

/-- A message written to the WebSocket connection by the session. -/
inductive OutMsg
  | media (payload : List Nat)
  | event (name : String)
  | closeFrame
deriving DecidableEq

/-- SignalWireCallSession: closed flag and diagnostic counter, the two
link-side frame channels (capacity 100), and the WebSocket connection
modelled as an open flag plus the list of written messages. -/
structure SignalWireCallSession where
  closed : Bool
  closedCount : Nat
  audioInChan : GoChan
  audioOutChan : GoChan
  connOpen : Bool
  connSent : List OutMsg
deriving DecidableEq

/-- The session built in HandleWebSocketConnection: open channels of
capacity 100, open connection, nothing written. -/
def newCallSession : SignalWireCallSession :=
  { closed := false
    closedCount := 0
    audioInChan := { buf := [], cap := 100, closed := false }
    audioOutChan := { buf := [], cap := 100, closed := false }
    connOpen := true
    connSent := [] }

/-- Result of SignalWireCallSession.Close: the Go method returns nil in
both branches; closing an already-closed channel inside it would panic
(unreachable: the closed flag guards the channel closes). -/
inductive CloseCallResult
  | ok
  | panicked
deriving DecidableEq

/-- Close of the call session: when already closed, return nil immediately
(no counter bump, no other effect); otherwise set the flag, bump
ClosedCount, close both channels, write a normal-closure frame and close
the connection. -/
def closeCallSession (cs : SignalWireCallSession) : CloseCallResult × SignalWireCallSession :=
  if cs.closed then (.ok, cs)
  else
    match chanClose cs.audioInChan, chanClose cs.audioOutChan with
    | some chIn, some chOut =>
        (.ok, { cs with
                closed := true
                closedCount := cs.closedCount + 1
                audioInChan := chIn
                audioOutChan := chOut
                connOpen := false
                connSent := cs.connSent ++ [OutMsg.closeFrame] })
    | _, _ => (.panicked, cs)

/-- Outcome of an outbound write on the session. -/
inductive WriteOutcome
  | sent
  | sessionClosed
  | writeFailed
deriving DecidableEq

/-- streamAudioToSignalWire: a closed session fails with the session-closed
error before anything is written; otherwise the media message with track
outbound and the base64 payload is written as one text frame (a write on a
closed connection fails). -/
def streamAudioToSignalWire (cs : SignalWireCallSession) (audioData : List Nat) :
    WriteOutcome × SignalWireCallSession :=
  if cs.closed then (.sessionClosed, cs)
  else if cs.connOpen then (.sent, { cs with connSent := cs.connSent ++ [OutMsg.media audioData] })
  else (.writeFailed, cs)

/-- SendEvent: same closed-session guard, then one text frame with the
event name. -/
def sendEvent (cs : SignalWireCallSession) (eventType : String) :
    WriteOutcome × SignalWireCallSession :=
  if cs.closed then (.sessionClosed, cs)
  else if cs.connOpen then (.sent, { cs with connSent := cs.connSent ++ [OutMsg.event eventType] })
  else (.writeFailed, cs)

/-- The media object of an inbound media event. The track field may be
absent (non-string JSON); the payload is absent, present-but-invalid
base64 (some none), or present and decoding to the given bytes
(some (some bytes)) -- base64 decoding itself is a fixed injection from
valid strings to byte lists and is abstracted to its result. -/
structure MediaObj where
  track : Option String
  payload : Option (Option (List Nat))
deriving DecidableEq

/-- Outcome of handleMediaEvent: the returned error value, or a runtime
panic from sending on a closed channel. -/
inductive MediaOutcome
  | ok
  | errMissingMedia
  | errMissingTrack
  | errMissingPayload
  | errBadBase64
  | panicked
deriving DecidableEq

/-- handleMediaEvent: require the media object and its track; a track other
than inbound returns nil at once, touching nothing; then require and
base64-decode the payload and send it into AudioInChan non-blockingly with
the 10 ms grace (a full channel drops the chunk with only a log line -- no
counter); a send on the closed channel after Close is a runtime panic. -/
def handleMediaEvent (cs : SignalWireCallSession) (media : Option MediaObj) :
    MediaOutcome × SignalWireCallSession :=
  match media with
  | none => (.errMissingMedia, cs)
  | some mo =>
    match mo.track with
    | none => (.errMissingTrack, cs)
    | some track =>
      if track ≠ "inbound" then (.ok, cs)
      else
        match mo.payload with
        | none => (.errMissingPayload, cs)
        | some none => (.errBadBase64, cs)
        | some (some audioData) =>
          match chanTrySend cs.audioInChan audioData with
          | (.delivered, ch) => (.ok, { cs with audioInChan := ch })
          | (.dropped, ch) => (.ok, { cs with audioInChan := ch })
          | (.panicked, _) => (.panicked, cs)

/- ============================================================
   Auxiliary definitions used by the claim theorems
   ============================================================ -/

/-- The byte-composition tail of linearToMulaw, factored out so the encode
step can be characterised: compose (exponent << 4) | mantissa in int16,
truncate to a byte, OR the sign bit when negative, complement. -/
def composeMulawByte (neg : Bool) (e : Nat) (mant : Int) : Nat :=
  let b1 := (Nat.lor (e <<< 4) (toUInt16 mant)) % 256
  (if neg then b1 ||| 0x80 else b1) ^^^ 0xFF

/-- The exponential-moving-average recurrence of the spec, folded over a
list of observations from a starting average. -/
def ewmaFold (a : Int) (xs : List Int) : Int :=
  xs.foldl (fun acc x => Int.tdiv (acc * 9 + x) 10) a

/-- Running maximum of a list of observations from a starting value. -/
def maxFold (a : Int) (xs : List Int) : Int :=
  xs.foldl (fun acc x => max acc x) a

/-- A fresh bridge session whose phone-to-AI queue has the given capacity
(the configurable queue_capacity; CreateSession uses 500). -/
def sessionWithCap (c : Nat) : BridgeSession :=
  { newBridgeSession with phoneToAIChan := { buf := [], cap := c, closed := false } }

/-- The registry after CreateSession on an empty bridge with id S1, the
concrete scenario of the idempotent-close test. -/
def demoReg : AudioStreamBridge :=
  match createSession { sessions := [] } "S1" with
  | some (_, bridge) => bridge
  | none => { sessions := [] }

/-- The four input samples of the resample-doubling scenario. -/
def c4Input : List Int := [0, 10000, 0, -10000]

/-- The eight samples the code actually produces for that scenario. -/
def c4Output : List Int := [0, 5000, 10000, 5000, 0, -5000, -10000, -15000]

/- ============================================================
   Claim theorems
   ============================================================ -/

/-- C1. The enqueue paths have no Closed-error return at all: a media event
whose payload reaches the send after Close has closed AudioInChan runs the
send case of the select on a closed channel, a runtime panic in Go (first
conjunct); likewise the phone-to-AI router forwarding into the session
queue after the registry closed it panics instead of observing a Closed
error (second conjunct). The producers crash rather than tolerate the
closed queue. -/
theorem c1_enqueue_after_close_panics :
    (handleMediaEvent (closeCallSession newCallSession).2
      (some { track := some "inbound", payload := some (some [0x7F]) })).1 =
      .panicked ∧
    routePhoneToAIStep
      { newBridgeSession with
        phoneToAIChan := { buf := [], cap := 500, closed := true } } [0x7F] 0 =
      none := by decide

/-- C2. The mu-law decode-then-encode round trip is not the identity: the
four bytes named by the spec come back as [0x01, 0x47, 0x81, 0xC7], and in
particular encode_mulaw(decode_mulaw(0xFF)) is 0xC7, not 0xFF (the encoder
searches the exponent over thresholds 2^(e+5) with mantissa magnitude >>
(e+1), which does not invert the decoder). -/
theorem c2_roundtrip_fails :
    encodeMulaw (decodeMulaw [0x00, 0x7F, 0x80, 0xFF]) =
      some [0x01, 0x47, 0x81, 0xC7] ∧
    encodeMulaw (decodeMulaw [0xFF]) = some [0xC7] ∧
    linearToMulaw (decodeMulawByte 0xFF) ≠ 0xFF := by decide

/-- C3 counterexample. After create(S1), the first CloseSession(S1) returns
ok, but the second returns the not-found error, contradicting the claim
that every subsequent call produces no error. -/
theorem c3_counterexample_second_close_errors :
    (closeSession demoReg "S1").1 = CloseSessionResult.ok ∧
    (closeSession (closeSession demoReg "S1").2 "S1").1 =
      CloseSessionResult.notFound ∧
    CloseSessionResult.notFound ≠ CloseSessionResult.ok := by decide

/-- C4 counterexample. Resampling [0, 10000, 0, -10000] from 8 kHz to
16 kHz gives 8 samples whose last (odd index 7) is -15000, which is not
the arithmetic mean of any two neighbouring input samples (nor of the
clamped pair in3, in3): the loop clamps the source index to 2 and
extrapolates with fraction 1.5. -/
theorem c4_counterexample_last_sample_not_mean :
    resamplePCM16 (pcm16Bytes c4Input) 8000 16000 = .ok (pcm16Bytes c4Output) ∧
    c4Output.getD 7 0 = -15000 ∧
    2 * (-15000 : Int) ≠ c4Input.getD 0 0 + c4Input.getD 1 0 ∧
    2 * (-15000 : Int) ≠ c4Input.getD 1 0 + c4Input.getD 2 0 ∧
    2 * (-15000 : Int) ≠ c4Input.getD 2 0 + c4Input.getD 3 0 ∧
    2 * (-15000 : Int) ≠ 2 * c4Input.getD 3 0 := by decide

/-- C4 amended. The resampled frame has 8 samples; the samples at even
indices equal the corresponding input samples; the samples at odd indices
1, 3 and 5 equal the arithmetic mean of their two neighbouring input
samples; the final sample (index 7) is the linear extrapolation
1.5 * in3 - 0.5 * in2 = -15000 produced by the source-index clamp. -/
theorem c4_amended_resample_doubling :
    resamplePCM16 (pcm16Bytes c4Input) 8000 16000 = .ok (pcm16Bytes c4Output) ∧
    c4Output.length = 8 ∧
    (c4Output.getD 0 0 = c4Input.getD 0 0 ∧ c4Output.getD 2 0 = c4Input.getD 1 0 ∧
     c4Output.getD 4 0 = c4Input.getD 2 0 ∧ c4Output.getD 6 0 = c4Input.getD 3 0) ∧
    (2 * c4Output.getD 1 0 = c4Input.getD 0 0 + c4Input.getD 1 0 ∧
     2 * c4Output.getD 3 0 = c4Input.getD 1 0 + c4Input.getD 2 0 ∧
     2 * c4Output.getD 5 0 = c4Input.getD 2 0 + c4Input.getD 3 0) ∧
    2 * c4Output.getD 7 0 = 3 * c4Input.getD 3 0 - c4Input.getD 2 0 := by decide

/-- C5 counterexample. At the even-length frame holding the single sample
32, the code emits 0xEF: it picks exponent 0 (32 <= 1 << 5) and mantissa
32 >> 1 = 16, which overflows the 4-bit mantissa field; the encoder the
claim describes (smallest exponent whose mantissa fits 4 bits) picks
exponent 1 and emits 0xE7. -/
theorem c5_counterexample_exponent_rule :
    encodeMulaw (pcm16Bytes [32]) = some [0xEF] ∧
    specLinearToMulaw 32 = 0xE7 ∧
    linearToMulaw 32 ≠ specLinearToMulaw 32 := by decide

/-- C6 counterexample. ClosedCount after two Close() calls is 1, not 2: the
second call returns nil before the diagnostic bump, so the claim that the
second call bumps close_count fails. -/
theorem c6_counterexample_second_close_no_bump :
    ((closeCallSession (closeCallSession newCallSession).2).2).closedCount = 1 ∧
    ((closeCallSession (closeCallSession newCallSession).2).2).closedCount ≠ 2 := by
  decide

/-- C9 counterexample. With observations 0 then 10, the code stores avg =
10 after the second observation (the EWMA branch is guarded by avg == 0,
not by being past the first observation), while the claimed recurrence
(avg * 9 + x) / 10 = (0 * 9 + 10) / 10 gives 1. -/
theorem c9_counterexample_zero_observation :
    (updateLatency (updateLatency {} 0) 10).averageLatencyUs = 10 ∧
    Int.tdiv ((updateLatency ({} : BridgeMetrics) 0).averageLatencyUs * 9 + 10) 10 = 1 ∧
    (10 : Int) ≠ 1 := by decide

/-- C10. Resampling a non-empty even-length frame is not panic-free: for a
frame holding exactly one 16-bit sample, upsampled from 8000 Hz to
16000 Hz, the bounds check clamps the source index to numInputSamples - 2
= -1, and the slice read at a negative index is a runtime panic. -/
theorem c10_single_sample_resample_panics :
    resamplePCM16 (pcm16Bytes [100]) 8000 16000 = .panicked := by decide

/-- C8. A media event whose track field is present but different from
inbound returns nil immediately: nothing is enqueued toward the
phone-to-pipeline path, no counter moves, and the whole session state is
returned unchanged. -/
theorem c8_outbound_track_ignored (cs : SignalWireCallSession) (mo : MediaObj)
    (track : String) (htrack : mo.track = some track) (hne : track ≠ "inbound") :
    handleMediaEvent cs (some mo) = (.ok, cs) := by
  simp [handleMediaEvent, htrack, hne]

/-- Witness for C8 at the outbound-echo event of the spec scenario. -/
theorem c8_outbound_track_ignored_witness :
    handleMediaEvent newCallSession
      (some { track := some "outbound", payload := some (some [0x7F]) }) =
      (.ok, newCallSession) :=
  c8_outbound_track_ignored newCallSession
    { track := some "outbound", payload := some (some [0x7F]) } "outbound" rfl
    (by decide)

/-- C6 amended. Close is idempotent in the strong sense: a second call on a
closed session returns nil and changes nothing at all -- in particular it
does NOT bump close_count, which only counts the first transition -- and
every outbound write (streamAudioToSignalWire, SendEvent) on a closed
session fails with the session-closed error without writing or crashing. -/
theorem c6_amended_close_noop_writes_fail (cs : SignalWireCallSession)
    (h : cs.closed = true) :
    closeCallSession cs = (.ok, cs) ∧
    (∀ audioData : List Nat,
      streamAudioToSignalWire cs audioData = (.sessionClosed, cs)) ∧
    (∀ eventType : String, sendEvent cs eventType = (.sessionClosed, cs)) := by
  unfold closeCallSession streamAudioToSignalWire sendEvent
  simp [h]

/-- Witness for C6 at the concrete once-closed session. -/
theorem c6_amended_witness :
    closeCallSession (closeCallSession newCallSession).2 =
      (.ok, (closeCallSession newCallSession).2) ∧
    streamAudioToSignalWire (closeCallSession newCallSession).2 [0x7F] =
      (.sessionClosed, (closeCallSession newCallSession).2) ∧
    sendEvent (closeCallSession newCallSession).2 "stream_stopped" =
      (.sessionClosed, (closeCallSession newCallSession).2) := by
  have h := c6_amended_close_noop_writes_fail (closeCallSession newCallSession).2
    (by decide)
  exact ⟨h.1, h.2.1 [0x7F], h.2.2 "stream_stopped"⟩

/-- After filtering out every entry with the given id, a lookup for that id
finds nothing. -/
theorem find_after_filter_ne (l : List (String × BridgeSession)) (sessionID : String) :
    List.find? (fun p => p.1 == sessionID)
      (l.filter (fun p => !(p.1 == sessionID))) = none := by
  induction l with
  | nil => rfl
  | cons hd tl ih =>
    cases h : (hd.1 == sessionID) with
    | true => simp [List.filter_cons, h, ih]
    | false => simp [List.filter_cons, h, List.find?_cons, ih]

/-- Repeated CloseSession at a fixed point of the registry state changes
nothing, however many times it runs. -/
theorem closeSessionTimes_fixed (reg : AudioStreamBridge) (sessionID : String)
    (hfix : closeSession reg sessionID = (.notFound, reg)) :
    ∀ n : Nat, closeSessionTimes reg sessionID n = reg := by
  intro n
  induction n with
  | zero => rfl
  | succ k ih =>
    show closeSessionTimes (closeSession reg sessionID).2 sessionID k = reg
    rw [hfix]
    exact ih

/-- C3 amended. For an existing session (with its queues still open, as the
registry guarantees), the first CloseSession closes both queues exactly
once without a double-close panic (result ok) and removes the entry, after
which GetSession returns nil; every subsequent CloseSession call returns
the session-not-found ERROR (not a silent success, as the spec words it)
while leaving the registry unchanged, so N calls have the same state
effect as one. -/
theorem c3_amended_close_idempotent_state (bridge : AudioStreamBridge)
    (sessionID : String) (sess : BridgeSession)
    (hfind : lookupSession bridge sessionID = some sess)
    (h1 : sess.phoneToAIChan.closed = false)
    (h2 : sess.aiToPhoneChan.closed = false) :
    (closeSession bridge sessionID).1 = .ok ∧
    getSession (closeSession bridge sessionID).2 sessionID = none ∧
    closeSession (closeSession bridge sessionID).2 sessionID =
      (.notFound, (closeSession bridge sessionID).2) ∧
    ∀ n : Nat, closeSessionTimes bridge sessionID (n + 1) =
      (closeSession bridge sessionID).2 := by
  have hclose : closeSession bridge sessionID =
      (.ok, { sessions := bridge.sessions.filter (fun p => !(p.1 == sessionID)) }) := by
    unfold closeSession
    rw [hfind]
    simp [chanClose, h1, h2]
  have hlook : lookupSession (closeSession bridge sessionID).2 sessionID = none := by
    rw [hclose]
    unfold lookupSession
    rw [find_after_filter_ne]
    rfl
  have hfix : closeSession (closeSession bridge sessionID).2 sessionID =
      (.notFound, (closeSession bridge sessionID).2) := by
    generalize hreg : (closeSession bridge sessionID).2 = reg1 at hlook ⊢
    unfold closeSession
    rw [hlook]
  refine ⟨by rw [hclose], hlook, hfix, ?_⟩
  intro n
  show closeSessionTimes (closeSession bridge sessionID).2 sessionID n =
    (closeSession bridge sessionID).2
  exact closeSessionTimes_fixed _ _ hfix n

/-- Witness for C3 at the concrete registry created with S1: three closes,
single effective one, get returns nil. -/
theorem c3_amended_witness :
    (closeSession demoReg "S1").1 = .ok ∧
    getSession (closeSession demoReg "S1").2 "S1" = none ∧
    closeSessionTimes demoReg "S1" 3 = (closeSession demoReg "S1").2 := by
  have h := c3_amended_close_idempotent_state demoReg "S1" newBridgeSession
    (by decide) (by decide) (by decide)
  exact ⟨h.1, h.2.1, h.2.2.2 2⟩

/-- One EWMA step on averages at least 1 with an observation at least 1
stays at least 1 (Go int64 division of a value at least 10 by 10). -/
theorem ewma_step_pos (a x : Int) (ha : 1 ≤ a) (hx : 1 ≤ x) :
    1 ≤ Int.tdiv (a * 9 + x) 10 := by
  have h0 : (0 : Int) ≤ a * 9 + x := by linarith
  rw [Int.tdiv_eq_ediv h0 (by norm_num)]
  rw [Int.le_ediv_iff_mul_le (by norm_num : (0 : Int) < 10)]
  linarith

/-- Folding updateLatency from a state whose average is already positive
applies the EWMA recurrence at every step and tracks the running maximum,
as long as every observation is positive. -/
theorem updateLatency_fold (xs : List Int) :
    ∀ m : BridgeMetrics, 1 ≤ m.averageLatencyUs → (∀ x ∈ xs, 1 ≤ x) →
    (xs.foldl updateLatency m).averageLatencyUs = ewmaFold m.averageLatencyUs xs ∧
    (xs.foldl updateLatency m).maxLatencyUs = maxFold m.maxLatencyUs xs := by
  induction xs with
  | nil => intro m _ _; exact ⟨rfl, rfl⟩
  | cons x l ih =>
    intro m hm hxs
    have hx : 1 ≤ x := hxs x (by simp)
    have havg : ¬ m.averageLatencyUs = 0 := by omega
    have hstep : (updateLatency m x).averageLatencyUs =
        Int.tdiv (m.averageLatencyUs * 9 + x) 10 := by
      unfold updateLatency
      simp [havg]
    have hmaxstep : (updateLatency m x).maxLatencyUs = max m.maxLatencyUs x := by
      unfold updateLatency
      rcases le_or_lt x m.maxLatencyUs with h | h
      · simp [not_lt.mpr h, max_eq_left h]
      · simp [h, max_eq_right (le_of_lt h)]
    have h1 : 1 ≤ (updateLatency m x).averageLatencyUs := by
      rw [hstep]
      exact ewma_step_pos _ _ hm hx
    have hrec := ih (updateLatency m x) h1 (fun y hy => hxs y (by simp [hy]))
    refine ⟨?_, ?_⟩
    · show (l.foldl updateLatency (updateLatency m x)).averageLatencyUs = _
      rw [hrec.1, hstep]
      rfl
    · show (l.foldl updateLatency (updateLatency m x)).maxLatencyUs = _
      rw [hrec.2, hmaxstep]
      rfl

/-- C9 amended. For a first observation x1 >= 1 followed by observations
all >= 1, updateLatency sets avg = x1 on the first observation and applies
avg = (avg * 9 + x) / 10 on every subsequent one, and max is the running
maximum of the observations. (The claim as stated fails when an
observation is 0: the first-observation branch is guarded by avg == 0, so
a stored average of 0 re-triggers it.) -/
theorem c9_amended_latency_ewma (x1 : Int) (xs : List Int)
    (hx1 : 1 ≤ x1) (hxs : ∀ x ∈ xs, 1 ≤ x) :
    (updateLatency {} x1).averageLatencyUs = x1 ∧
    (updateLatency {} x1).maxLatencyUs = x1 ∧
    ((x1 :: xs).foldl updateLatency {}).averageLatencyUs = ewmaFold x1 xs ∧
    ((x1 :: xs).foldl updateLatency {}).maxLatencyUs = maxFold x1 xs := by
  have hfa : (updateLatency ({} : BridgeMetrics) x1).averageLatencyUs = x1 := by
    unfold updateLatency
    simp
  have hfm : (updateLatency ({} : BridgeMetrics) x1).maxLatencyUs = x1 := by
    unfold updateLatency
    simp
    omega
  have h := updateLatency_fold xs (updateLatency {} x1) (by rw [hfa]; exact hx1) hxs
  rw [hfa, hfm] at h
  exact ⟨hfa, hfm, h.1, h.2⟩

/-- Witness for C9 with observations 5, 10, 3: avg follows 5, (45+10)/10 =
5, (45+3)/10 = 4 and max stays 10. -/
theorem c9_amended_witness :
    (([5, 10, 3] : List Int).foldl updateLatency {}).averageLatencyUs = ewmaFold 5 [10, 3] ∧
    (([5, 10, 3] : List Int).foldl updateLatency {}).maxLatencyUs = maxFold 5 [10, 3] ∧
    ewmaFold 5 [10, 3] = 4 ∧ maxFold 5 [10, 3] = 10 := by
  have h := c9_amended_latency_ewma 5 [10, 3] (by decide) (by decide)
  exact ⟨h.2.2.1, h.2.2.2, by decide, by decide⟩

/-- The non-blocking send on an open channel with room delivers and appends
the frame. -/
theorem chanTrySend_open_room (ch : GoChan) (x : List Nat) (hcl : ch.closed = false)
    (hlen : ch.buf.length < ch.cap) :
    chanTrySend ch x = (.delivered, { ch with buf := ch.buf ++ [x] }) := by
  unfold chanTrySend
  simp [hcl, hlen]

/-- The non-blocking send on an open full channel times out and drops,
leaving the channel unchanged. -/
theorem chanTrySend_open_full (ch : GoChan) (x : List Nat) (hcl : ch.closed = false)
    (hlen : ¬ ch.buf.length < ch.cap) :
    chanTrySend ch x = (.dropped, ch) := by
  unfold chanTrySend
  simp [hcl, hlen]

/-- updateLatency touches only the latency gauges: the packet counters are
unchanged. -/
theorem updateLatency_counters (m : BridgeMetrics) (x : Int) :
    (updateLatency m x).phoneToAIPacketsSent = m.phoneToAIPacketsSent ∧
    (updateLatency m x).phoneToAIPacketsDropped = m.phoneToAIPacketsDropped ∧
    (updateLatency m x).droppedPackets = m.droppedPackets := by
  unfold updateLatency
  exact ⟨rfl, rfl, rfl⟩

/-- Running the phone-to-AI router over any list of non-empty chunks,
starting from an open queue whose occupancy is within capacity, completes
without panic. Writing b for the starting occupancy, cap for the capacity
and n for the number of chunks: the final occupancy is
b + n - (b + n - cap), i.e. min(cap, b + n) written with truncated
subtraction; the sent counter grows by n - (b + n - cap) (the delivered
chunks) and both drop counters grow by b + n - cap (the overflowing
chunks). -/
theorem routeRun_counting (chunks : List (List Nat)) :
    ∀ s : BridgeSession,
    (∀ c ∈ chunks, c ≠ []) →
    s.phoneToAIChan.closed = false →
    s.phoneToAIChan.buf.length ≤ s.phoneToAIChan.cap →
    ∃ s', routePhoneToAIRun s chunks = some s' ∧
      s'.phoneToAIChan.cap = s.phoneToAIChan.cap ∧
      s'.phoneToAIChan.closed = false ∧
      s'.phoneToAIChan.buf.length =
        s.phoneToAIChan.buf.length + chunks.length
          - (s.phoneToAIChan.buf.length + chunks.length - s.phoneToAIChan.cap) ∧
      s'.metrics.phoneToAIPacketsSent = s.metrics.phoneToAIPacketsSent +
        ((chunks.length
           - (s.phoneToAIChan.buf.length + chunks.length - s.phoneToAIChan.cap) : Nat) : Int) ∧
      s'.metrics.phoneToAIPacketsDropped = s.metrics.phoneToAIPacketsDropped +
        ((s.phoneToAIChan.buf.length + chunks.length - s.phoneToAIChan.cap : Nat) : Int) ∧
      s'.metrics.droppedPackets = s.metrics.droppedPackets +
        ((s.phoneToAIChan.buf.length + chunks.length - s.phoneToAIChan.cap : Nat) : Int) := by
  induction chunks with
  | nil =>
    intro s _ hcl hb
    refine ⟨s, rfl, rfl, hcl, ?_, ?_, ?_, ?_⟩ <;>
      simp only [List.length_nil, Nat.add_zero] <;> omega
  | cons c l ih =>
    intro s hne hcl hb
    have hc : c ≠ [] := hne c (by simp)
    have hclen : ¬ c.length = 0 := by
      intro h0
      exact hc (List.eq_nil_of_length_eq_zero h0)
    by_cases hroom : s.phoneToAIChan.buf.length < s.phoneToAIChan.cap
    · have hsend := chanTrySend_open_room s.phoneToAIChan c hcl hroom
      have hstep : routePhoneToAIStep s c 0 = some
          { s with
            phoneToAIChan := { s.phoneToAIChan with buf := s.phoneToAIChan.buf ++ [c] }
            metrics := updateLatency
              { s.metrics with
                phoneToAIPacketsSent := s.metrics.phoneToAIPacketsSent + 1
                bytesReceived := s.metrics.bytesReceived + c.length } 0 } := by
        unfold routePhoneToAIStep
        rw [hsend]
        simp [hclen]
      obtain ⟨s1, hrun, hcap, hcl1, hlen1, hsent, hdrop, hglob⟩ :=
        ih { s with
              phoneToAIChan := { s.phoneToAIChan with buf := s.phoneToAIChan.buf ++ [c] }
              metrics := updateLatency
                { s.metrics with
                  phoneToAIPacketsSent := s.metrics.phoneToAIPacketsSent + 1
                  bytesReceived := s.metrics.bytesReceived + c.length } 0 }
          (fun d hd => hne d (by simp [hd])) hcl (by
            show (s.phoneToAIChan.buf ++ [c]).length ≤ s.phoneToAIChan.cap
            simp only [List.length_append, List.length_cons, List.length_nil]
            omega)
      have hcnt := updateLatency_counters
        { s.metrics with
          phoneToAIPacketsSent := s.metrics.phoneToAIPacketsSent + 1
          bytesReceived := s.metrics.bytesReceived + c.length } 0
      simp only [List.length_append, List.length_cons, List.length_nil,
        Nat.add_zero] at hlen1 hsent hdrop hglob
      simp only [hcnt.1, hcnt.2.1, hcnt.2.2] at hsent hdrop hglob
      refine ⟨s1, ?_, by exact hcap, hcl1, ?_, ?_, ?_, ?_⟩
      · show List.foldlM (fun st f => routePhoneToAIStep st f 0) s (c :: l) = some s1
        rw [List.foldlM_cons, hstep]
        exact hrun
      · simp only [List.length_cons] at hlen1 ⊢
        omega
      · simp only [List.length_cons] at hsent ⊢
        omega
      · simp only [List.length_cons] at hdrop ⊢
        omega
      · simp only [List.length_cons] at hglob ⊢
        omega
    · have hsend := chanTrySend_open_full s.phoneToAIChan c hcl hroom
      have hstep : routePhoneToAIStep s c 0 = some
          { s with
            phoneToAIChan := s.phoneToAIChan
            metrics :=
              { s.metrics with
                phoneToAIPacketsDropped := s.metrics.phoneToAIPacketsDropped + 1
                droppedPackets := s.metrics.droppedPackets + 1 } } := by
        unfold routePhoneToAIStep
        rw [hsend]
        simp [hclen]
      obtain ⟨s1, hrun, hcap, hcl1, hlen1, hsent, hdrop, hglob⟩ :=
        ih { s with
              phoneToAIChan := s.phoneToAIChan
              metrics :=
                { s.metrics with
                  phoneToAIPacketsDropped := s.metrics.phoneToAIPacketsDropped + 1
                  droppedPackets := s.metrics.droppedPackets + 1 } }
          (fun d hd => hne d (by simp [hd])) hcl hb
      refine ⟨s1, ?_, by exact hcap, hcl1, ?_, ?_, ?_, ?_⟩
      · show List.foldlM (fun st f => routePhoneToAIStep st f 0) s (c :: l) = some s1
        rw [List.foldlM_cons, hstep]
        exact hrun
      · simp only [List.length_cons] at hlen1 ⊢
        omega
      · simp only [List.length_cons] at hsent ⊢
        omega
      · simp only [List.length_cons] at hdrop ⊢
        omega
      · simp only [List.length_cons] at hglob ⊢
        omega

/-- One router step keeps the phone-to-AI queue within capacity and never
changes the capacity. -/
theorem routeStep_bounded (s t : BridgeSession) (c : List Nat) (lat : Int)
    (h : routePhoneToAIStep s c lat = some t)
    (hb : s.phoneToAIChan.buf.length ≤ s.phoneToAIChan.cap) :
    t.phoneToAIChan.buf.length ≤ t.phoneToAIChan.cap ∧
    t.phoneToAIChan.cap = s.phoneToAIChan.cap := by
  unfold routePhoneToAIStep chanTrySend at h
  split at h
  · cases h
    exact ⟨hb, rfl⟩
  · split at h
    · cases h
      rename_i x ch heq
      split at heq
      · exact absurd heq (by simp)
      · split at heq
        · rename_i hcl hroom
          cases heq
          refine ⟨?_, rfl⟩
          simp only [List.length_append, List.length_cons, List.length_nil]
          omega
        · exact absurd heq (by simp)
    · cases h
      rename_i x ch heq
      split at heq
      · exact absurd heq (by simp)
      · split at heq
        · exact absurd heq (by simp)
        · cases heq
          exact ⟨hb, rfl⟩
    · exact Option.noConfusion h

/-- A whole router run keeps the phone-to-AI queue within capacity. -/
theorem routeRun_bounded (chunks : List (List Nat)) :
    ∀ s s' : BridgeSession,
    routePhoneToAIRun s chunks = some s' →
    s.phoneToAIChan.buf.length ≤ s.phoneToAIChan.cap →
    s'.phoneToAIChan.buf.length ≤ s'.phoneToAIChan.cap := by
  induction chunks with
  | nil =>
    intro s s' h hb
    cases h
    exact hb
  | cons c l ih =>
    intro s s' h hb
    unfold routePhoneToAIRun at h
    rw [List.foldlM_cons] at h
    cases hstep : routePhoneToAIStep s c 0 with
    | none =>
      rw [hstep] at h
      exact Option.noConfusion h
    | some t =>
      rw [hstep] at h
      exact ih t s' h (routeStep_bounded s t c 0 hstep hb).1

/-- C7. The queues are bounded: the session pair queues are created with
capacity 500 and the link channels with capacity 100; a router run never
pushes the phone-to-AI queue above its capacity; and pushing C + k
non-empty frames into an empty phone-to-AI queue of capacity C with no
consumer leaves exactly C frames queued, counts the C delivered frames in
PhoneToAIPacketsSent, and counts each of the k overflowing frames once in
PhoneToAIPacketsDropped and once in the global DroppedPackets. The push is
the total function routePhoneToAIStep -- the producer always returns after
the 10 ms grace instead of blocking. -/
theorem c7_queue_capacity_backpressure :
    (newBridgeSession.phoneToAIChan.cap = 500 ∧ newBridgeSession.aiToPhoneChan.cap = 500 ∧
     newCallSession.audioInChan.cap = 100 ∧ newCallSession.audioOutChan.cap = 100) ∧
    (∀ (chunks : List (List Nat)) (s s' : BridgeSession),
      routePhoneToAIRun s chunks = some s' →
      s.phoneToAIChan.buf.length ≤ s.phoneToAIChan.cap →
      s'.phoneToAIChan.buf.length ≤ s'.phoneToAIChan.cap) ∧
    (∀ (capC k : Nat) (chunks : List (List Nat)),
      chunks.length = capC + k → (∀ c ∈ chunks, c ≠ []) →
      ∃ s', routePhoneToAIRun (sessionWithCap capC) chunks = some s' ∧
        s'.phoneToAIChan.buf.length = capC ∧
        s'.metrics.phoneToAIPacketsSent = (capC : Int) ∧
        s'.metrics.phoneToAIPacketsDropped = (k : Int) ∧
        s'.metrics.droppedPackets = (k : Int)) := by
  refine ⟨⟨rfl, rfl, rfl, rfl⟩, routeRun_bounded, ?_⟩
  intro capC k chunks hn hne
  obtain ⟨s', hrun, hcap, hcl, hlen, hsent, hdrop, hglob⟩ :=
    routeRun_counting chunks (sessionWithCap capC) hne rfl
      (by simp [sessionWithCap, newBridgeSession])
  refine ⟨s', hrun, ?_, ?_, ?_, ?_⟩
  · simp only [sessionWithCap, newBridgeSession, List.length_nil, hn] at hlen
    omega
  · simp only [sessionWithCap, newBridgeSession, List.length_nil, hn] at hsent
    rw [hsent]
    simp
  · simp only [sessionWithCap, newBridgeSession, List.length_nil, hn] at hdrop
    rw [hdrop]
    simp
  · simp only [sessionWithCap, newBridgeSession, List.length_nil, hn] at hglob
    rw [hglob]
    simp

/-- Witness for C7: the backpressure scenario of the spec with capacity 4
and 10 pushed frames gives 4 queued, 6 dropped in both counters. -/
theorem c7_queue_capacity_witness :
    ∃ s', routePhoneToAIRun (sessionWithCap 4) (List.replicate 10 [1]) = some s' ∧
      s'.phoneToAIChan.buf.length = 4 ∧
      s'.metrics.phoneToAIPacketsSent = 4 ∧
      s'.metrics.phoneToAIPacketsDropped = 6 ∧
      s'.metrics.droppedPackets = 6 :=
  c7_queue_capacity_backpressure.2.2 4 6 (List.replicate 10 [1]) (by decide) (by decide)

/-- The unrolled exponent loop picks exactly the smallest e in [0, 6] with
m <= 2^(e+5), and returns 7 exactly when every such bound fails. -/
theorem mulawExponent_min (m : Int) :
    (mulawExponent m < 7 → m ≤ 2 ^ (mulawExponent m + 5) ∧
      ∀ j < mulawExponent m, 2 ^ (j + 5) < m) ∧
    (mulawExponent m = 7 → ∀ j < 7, 2 ^ (j + 5) < m) := by
  unfold mulawExponent
  split_ifs with h1 h2 h3 h4 h5 h6 h7
  · exact ⟨fun _ => ⟨by norm_num; omega, fun j hj => by interval_cases j⟩,
      fun he => absurd he (by norm_num)⟩
  · refine ⟨fun _ => ⟨by norm_num; omega, fun j hj => ?_⟩,
      fun he => absurd he (by norm_num)⟩
    interval_cases j <;> norm_num <;> omega
  · refine ⟨fun _ => ⟨by norm_num; omega, fun j hj => ?_⟩,
      fun he => absurd he (by norm_num)⟩
    interval_cases j <;> norm_num <;> omega
  · refine ⟨fun _ => ⟨by norm_num; omega, fun j hj => ?_⟩,
      fun he => absurd he (by norm_num)⟩
    interval_cases j <;> norm_num <;> omega
  · refine ⟨fun _ => ⟨by norm_num; omega, fun j hj => ?_⟩,
      fun he => absurd he (by norm_num)⟩
    interval_cases j <;> norm_num <;> omega
  · refine ⟨fun _ => ⟨by norm_num; omega, fun j hj => ?_⟩,
      fun he => absurd he (by norm_num)⟩
    interval_cases j <;> norm_num <;> omega
  · refine ⟨fun _ => ⟨by norm_num; omega, fun j hj => ?_⟩,
      fun he => absurd he (by norm_num)⟩
    interval_cases j <;> norm_num <;> omega
  · refine ⟨fun he => absurd he (by norm_num), fun _ j hj => ?_⟩
    interval_cases j <;> norm_num <;> omega

/-- Go int16 negation does not wrap for samples above -32768. -/
theorem toInt16_toUInt16_neg (sample : Int) (h1 : -32767 ≤ sample) (hneg : sample < 0) :
    toInt16 (toUInt16 (-sample)) = -sample := by
  unfold toInt16 toUInt16
  split <;> omega

/-- For every int16 sample except -32768, linearToMulaw is the byte
composition over magnitude |sample| clamped to 32635, with the exponent
from the unrolled loop and mantissa magnitude >> (exponent + 1). -/
theorem linearToMulaw_eq_compose (sample : Int) (h1 : -32767 ≤ sample) (h2 : sample ≤ 32767) :
    linearToMulaw sample =
      composeMulawByte (decide (sample < 0))
        (mulawExponent ((if 32635 < sample.natAbs then 32635 else sample.natAbs : Nat) : Int))
        (Int.fdiv ((if 32635 < sample.natAbs then 32635 else sample.natAbs : Nat) : Int)
          (2 ^ (mulawExponent ((if 32635 < sample.natAbs then 32635 else sample.natAbs : Nat) : Int) + 1))) := by
  by_cases hneg : sample < 0
  · have hwrap := toInt16_toUInt16_neg sample h1 hneg
    have hcast : (if (-sample) > 32635 then (32635 : Int) else -sample) =
        ((if 32635 < sample.natAbs then 32635 else sample.natAbs : Nat) : Int) := by
      split_ifs <;> omega
    unfold linearToMulaw composeMulawByte
    simp only [if_pos hneg, hwrap, hcast]
    simp [hneg]
  · have hcast : (if sample > 32635 then (32635 : Int) else sample) =
        ((if 32635 < sample.natAbs then 32635 else sample.natAbs : Nat) : Int) := by
      split_ifs <;> omega
    unfold linearToMulaw composeMulawByte
    simp only [if_neg hneg, hcast]
    simp [hneg]

/-- C5 amended. encodeMulaw rejects every odd-length frame with an error;
for each sample it records the sign, clamps the magnitude to 32635 (with
the int16 wrap making -32768 encode as 0x7F, stated last), selects the
smallest exponent e in [0, 6] such that magnitude <= 2^(e+5) -- NOT the
smallest e whose mantissa fits the 4-bit field; at magnitude = 2^(e+5),
and for every magnitude above 4095 under exponent 7, the mantissa
magnitude >> (e+1) overflows the field and bleeds into the exponent and
sign bits -- defaulting to 7 when no bound holds, sets mantissa =
magnitude >> (exponent+1), composes (exponent<<4) | mantissa in int16,
truncates to a byte, ORs in the sign bit, and bit-inverts. -/
theorem c5_amended_encode_description :
    (∀ pcmData : List Nat, pcmData.length % 2 = 1 → encodeMulaw pcmData = none) ∧
    (∀ sample : Int, -32767 ≤ sample → sample ≤ 32767 →
      ∀ mag : Nat, mag = (if 32635 < sample.natAbs then 32635 else sample.natAbs) →
      ((mulawExponent (mag : Int) < 7 →
          (mag : Int) ≤ 2 ^ (mulawExponent (mag : Int) + 5) ∧
          ∀ j < mulawExponent (mag : Int), 2 ^ (j + 5) < (mag : Int)) ∧
       (mulawExponent (mag : Int) = 7 → ∀ j < 7, 2 ^ (j + 5) < (mag : Int))) ∧
      linearToMulaw sample =
        composeMulawByte (decide (sample < 0)) (mulawExponent (mag : Int))
          (Int.fdiv (mag : Int) (2 ^ (mulawExponent (mag : Int) + 1)))) ∧
    linearToMulaw (-32768) = 0x7F := by
  refine ⟨?_, ?_, by decide⟩
  · intro pcm hodd
    unfold encodeMulaw
    rw [if_pos hodd]
  · intro sample h1 h2 mag hmag
    subst hmag
    exact ⟨mulawExponent_min _, linearToMulaw_eq_compose sample h1 h2⟩

/-- Witness for C5 amended: an odd frame is rejected and the sample 1000
follows the composition with exponent 5. -/
theorem c5_amended_witness :
    encodeMulaw [1, 2, 3] = none ∧
    linearToMulaw 1000 =
      composeMulawByte (decide ((1000 : Int) < 0)) (mulawExponent ((1000 : Nat) : Int))
        (Int.fdiv ((1000 : Nat) : Int) (2 ^ (mulawExponent ((1000 : Nat) : Int) + 1))) ∧
    mulawExponent ((1000 : Nat) : Int) = 5 := by
  have h := c5_amended_encode_description
  refine ⟨h.1 [1, 2, 3] (by decide), ?_, by decide⟩
  have h2 := h.2.1 1000 (by decide) (by decide) 1000 (by decide)
  exact h2.2
